import Mathlib

/-!
Shallow embedding of the SUCHAI persistent-storage core: the FRAM status
table with triple-modular redundancy, the flight-plan engine with its
translation look-aside buffer (TLB), and the payload sample store.

The definitions mirror `src/src/system/repoData.c` and the flash storage
engine (`storage_flash.c`, concatenated into the source pack) in the
simulation build (LINUX, `ST_FP_TLB_FRAM` defined, `NANOMIND` undefined),
where every FRAM/flash media primitive returns `SCH_ST_OK`.  C pointers
that callers must pass non-NULL are modelled as plain values; the
`storage_is_open` flag is taken as set (all modelled operations run after
`storage_init`).  Machine integers are modelled as `Nat`/`Int` with an
explicit `% 2 ^ 32` wherever C `uint32_t` arithmetic can wrap.
-/

/-- Return code `SCH_ST_OK`. -/
def SCH_ST_OK : Int := 0

/-- Return code `SCH_ST_ERROR`. -/
def SCH_ST_ERROR : Int := -1

/-- Sentinel `ST_FP_NULL` marking an empty flight-plan slot. -/
def ST_FP_NULL : Int := -1

/-- Modulus of C `uint32_t` arithmetic. -/
def U32 : Nat := 4294967296

/-! ### Status table (FRAM, triple-modular redundancy) -/

/-- FRAM byte address of a status slot:
`uint16_t add = (uint16_t)(index * sizeof(value32_t))`.
The `uint16_t` cast wraps modulo 65536. -/
def framAddrOf (index : Nat) : Nat := (index * 4) % 65536

/-- `storage_status_set_value_idx`: write one 32-bit status copy to FRAM.
FRAM is modelled at 4-byte slot granularity keyed by the byte address;
every status access goes through the 4-byte aligned `framAddrOf`. -/
def storage_status_set_value_idx (fram : Nat → Int) (index : Nat) (v : Int) : Nat → Int :=
  Function.update fram (framAddrOf index) v

/-- `storage_status_get_value_idx`: read one 32-bit status copy from FRAM. -/
def storage_status_get_value_idx (fram : Nat → Int) (index : Nat) : Int :=
  fram (framAddrOf index)

/-- `dat_set_status_var` with `SCH_STORAGE_TRIPLE_WR = 1`: write the value to
the physical copies at `index`, `index + nVars` and `index + 2 * nVars`.
Modelled from the spec: the header `repoDataSchema.h` is absent from `src/`;
per spec section 3 the enum bounds `dat_status_last_address` (used by the
writer) and `dat_status_last_var` (used by the reader) are the same `N_vars`,
the `nVars` parameter here. -/
def dat_set_status_var (nVars : Nat) (fram : Nat → Int) (index : Nat) (v : Int) : Nat → Int :=
  let f1 := storage_status_set_value_idx fram index v
  let f2 := storage_status_set_value_idx f1 (index + nVars) v
  storage_status_set_value_idx f2 (index + 2 * nVars) v

/-- `dat_get_status_var` with `SCH_STORAGE_TRIPLE_WR = 1`: read the three
copies and vote: `v1` if `v1 = v2` or `v1 = v3`, else `v2` if `v2 = v3`,
else (after logging) fall through to `v1`. -/
def dat_get_status_var (nVars : Nat) (fram : Nat → Int) (index : Nat) : Int :=
  let v1 := storage_status_get_value_idx fram index
  let v2 := storage_status_get_value_idx fram (index + nVars)
  let v3 := storage_status_get_value_idx fram (index + 2 * nVars)
  if v1 = v2 ∨ v1 = v3 then v1
  else if v2 = v3 then v2
  else v1

/-! ### Flight-plan engine data model -/

/-- `fp_addr_t`: one TLB slot; `addr` is `uint32_t`, `unixtime` is `int32_t`. -/
structure FpAddrEntry where
  addr : Nat
  unixtime : Int
deriving DecidableEq

/-- The tombstone written by `flight_plan_erase_index_tlb` (and the all-0xFF
pattern of a freshly reset TLB): `unixtime = ST_FP_NULL` and
`addr = (uint32_t)(-1) = 4294967295`. -/
def fpTombstone : FpAddrEntry := ⟨U32 - 1, -1⟩

/-- `fp_container_t`: the 512-byte on-flash flight-plan record.  The two
248-byte char arrays are modelled as strings. -/
structure FpContainer where
  unixtime : Int
  executions : Int
  periodical : Int
  node : Int
  cmd : String
  args : String
deriving DecidableEq

/-- The all-zero container: simulated flash reads zeros after an erase
(`memset(flash_p + addr, 0, SCH_SIZE_PER_SECTION)`). -/
def FpContainer.zero : FpContainer := ⟨0, 0, 0, 0, "", ""⟩

/-- `fp_entry_t`: the caller-facing flight-plan entry. -/
structure FpEntrySt where
  unixtime : Int
  executions : Int
  periodical : Int
  node : Int
  cmd : String
  args : String
deriving DecidableEq

/-- Static flight-plan configuration fixed at `storage_init` /
`storage_table_flight_plan_init` time.  `nMax` is `SCH_FP_MAX_ENTRIES` and
also `st_flightplan_entries` (`dat_repo_init` initializes the table with
`SCH_FP_MAX_ENTRIES`); `cps` is
`commands_per_section = SCH_SIZE_PER_SECTION / FP_CONTAINER_SIZE`. -/
structure FpCfg where
  nMax : Nat
  cps : Nat
  fpBaseAddr : Nat
  sectionSize : Nat
deriving DecidableEq

/-- `st_flightplan_addr[i] = st_flightplan_base_addr + i * SCH_SIZE_PER_SECTION`
(a `uint32_t`).  The C array has `st_flightplan_sections` cells; indexes past
that bound are an out-of-bounds read in C and are modelled by the same
formula. -/
def FpCfg.fpAddr (c : FpCfg) (i : Nat) : Nat := (c.fpBaseAddr + i * c.sectionSize) % U32

/-- `st_flightplan_sections = (SCH_FP_MAX_ENTRIES * FP_CONTAINER_SIZE) / SCH_SIZE_PER_SECTION + 1`. -/
def FpCfg.fpSections (c : FpCfg) : Nat := (c.nMax * 512) / c.sectionSize + 1

/-- The mutable engine state: the in-RAM TLB (slots `0..nMax`, slot `nMax`
being metadata whose `addr` field is the append counter), the flight-plan
flash contents (one container per written byte address), and the FRAM
backup copy of the TLB (keyed by slot index).  The status table lives in a
disjoint FRAM region and is modelled separately. -/
structure FpState where
  tlb : Nat → FpAddrEntry
  flash : Nat → FpContainer
  framTlb : Nat → FpAddrEntry

/-- The TLB metadata counter `st_flightplan_tlb[SCH_FP_MAX_ENTRIES].addr`. -/
def fpCounter (c : FpCfg) (s : FpState) : Nat := (s.tlb c.nMax).addr

/-- `storage_flightplan_dump_tlb`: persist slot `index` (the whole TLB when
`index < 0`) to the FRAM backup (`ST_FP_TLB_FRAM` build).  The media write
always succeeds in simulation; only the state effect is modelled. -/
def storage_flightplan_dump_tlb (c : FpCfg) (s : FpState) (index : Int) : FpState :=
  if index < 0 then
    {s with framTlb := fun k => if k ≤ c.nMax then s.tlb k else s.framTlb k}
  else
    {s with framTlb := Function.update s.framTlb index.toNat (s.tlb index.toNat)}

/-- `storage_flightplan_find_index_tlb`: index of the first TLB slot whose
`unixtime` matches, `-1` if none. -/
def storage_flightplan_find_index_tlb (c : FpCfg) (s : FpState) (unixtime : Int) : Int :=
  match (List.range c.nMax).find? (fun i => decide ((s.tlb i).unixtime = unixtime)) with
  | some i => (i : Int)
  | none => -1

/-- `flight_plan_erase_index_tlb`: tombstone slot `index` (`{-1, -1}`) and
persist that one slot; out-of-bounds indexes are rejected with `-1`.
Flash is not touched. -/
def flight_plan_erase_index_tlb (c : FpCfg) (s : FpState) (index : Int) : Int × FpState :=
  if index < 0 ∨ (c.nMax : Int) ≤ index then (-1, s)
  else
    let s1 : FpState := {s with tlb := Function.update s.tlb index.toNat fpTombstone}
    (SCH_ST_OK, storage_flightplan_dump_tlb c s1 index)

/-- `storage_flightplan_update_tlb`: set slot `index`, increment the metadata
counter (`uint32_t` arithmetic: `1 + addr`, wrapping), persist both slots. -/
def storage_flightplan_update_tlb (c : FpCfg) (s : FpState) (index : Nat)
    (unixtime : Int) (addr : Nat) : Int × FpState :=
  let s1 : FpState := {s with tlb := Function.update s.tlb index ⟨addr, unixtime⟩}
  let meta := s1.tlb c.nMax
  let s2 : FpState :=
    {s1 with tlb := Function.update s1.tlb c.nMax ⟨(1 + meta.addr) % U32, meta.unixtime⟩}
  let s3 := storage_flightplan_dump_tlb c s2 (index : Int)
  (SCH_ST_OK, storage_flightplan_dump_tlb c s3 (c.nMax : Int))

/-- Simulated `storage_erase_flash`: zero the whole section containing `addr`. -/
def storage_erase_flash (c : FpCfg) (flash : Nat → FpContainer) (addr : Nat) :
    Nat → FpContainer :=
  let base := (addr / c.sectionSize) * c.sectionSize
  fun a => if base ≤ a ∧ a < base + c.sectionSize then FpContainer.zero else flash a

/-- One iteration of the `flight_plan_rebuild_tlb` re-write loop: a live slot
is re-read from the pre-erase snapshot `buf` at its recorded offset, given a
new compact address from the current counter, and re-written.  In C, `buf`
only holds the first `commands_per_section` containers and the offset
subtraction is `uint32_t`; out-of-range recorded addresses are undefined
behaviour there and are modelled by total `Nat` arithmetic here. -/
def flight_plan_rebuild_step (c : FpCfg) (buf : Nat → FpContainer) (s : FpState)
    (indexTlb : Nat) : FpState :=
  if (s.tlb indexTlb).unixtime ≠ ST_FP_NULL then
    let oldIndexFlash := ((s.tlb indexTlb).addr - c.fpAddr 0) / 512
    let entry := buf (c.fpAddr 0 + oldIndexFlash * 512)
    let newIndexFlash := (s.tlb c.nMax).addr
    let sectionIndex := newIndexFlash / c.cps
    let indexInSection := newIndexFlash % c.cps
    let newAddr := (c.fpAddr sectionIndex + indexInSection * 512) % U32
    let s1 := (storage_flightplan_update_tlb c s indexTlb (s.tlb indexTlb).unixtime newAddr).2
    {s1 with flash := Function.update s1.flash newAddr entry}
  else s

/-- `flight_plan_rebuild_tlb` (compaction): snapshot the live section, erase
it, zero the metadata slot, re-write every live TLB entry compactly, persist
the whole TLB. -/
def flight_plan_rebuild_tlb (c : FpCfg) (s : FpState) : Int × FpState :=
  let buf := s.flash
  let s1 : FpState := {s with flash := storage_erase_flash c s.flash (c.fpAddr 0)}
  let s2 : FpState := {s1 with tlb := Function.update s1.tlb c.nMax ⟨0, 0⟩}
  let s3 := (List.range c.nMax).foldl (flight_plan_rebuild_step c buf) s2
  (SCH_ST_OK, storage_flightplan_dump_tlb c s3 (-1))

/-- The rebuild guard of `storage_flight_plan_set_st`, verbatim from the
source: rebuild exactly when the metadata counter is strictly greater than
`commands_per_section`. -/
def fpSetRebuildGuard (c : FpCfg) (s : FpState) : Bool :=
  decide (c.cps < fpCounter c s)

/-- Body of `storage_flight_plan_set_st` after the rebuild guard: find a free
TLB slot, compute the flash address from the append counter, update the TLB
(persisting it), then write the 512-byte container; `strncpy` truncates
`cmd`/`args` to 248 bytes. -/
def fpSetBody (c : FpCfg) (s : FpState) (row : FpEntrySt) : Int × FpState :=
  let indexTlb := storage_flightplan_find_index_tlb c s ST_FP_NULL
  if indexTlb = -1 ∨ (c.nMax : Int) ≤ indexTlb then (SCH_ST_ERROR, s)
  else
    let indexFlash := fpCounter c s
    let sectionIndex := indexFlash / c.cps
    let indexInSection := indexFlash % c.cps
    let addr := (c.fpAddr sectionIndex + indexInSection * 512) % U32
    let newEntry : FpContainer :=
      ⟨row.unixtime, row.executions, row.periodical, row.node,
        row.cmd.take 248, row.args.take 248⟩
    let r1 := storage_flightplan_update_tlb c s indexTlb.toNat row.unixtime addr
    if r1.1 = SCH_ST_OK then
      (SCH_ST_OK, {r1.2 with flash := Function.update r1.2.flash addr newEntry})
    else r1

/-- `storage_flight_plan_set_st`: rebuild when the guard fires, then the body. -/
def storage_flight_plan_set_st (c : FpCfg) (s : FpState) (row : FpEntrySt) : Int × FpState :=
  let s1 := if fpSetRebuildGuard c s then (flight_plan_rebuild_tlb c s).2 else s
  fpSetBody c s1 row

/-- `storage_flight_plan_set`: negative `timetodo` rejected, otherwise build
the `fp_entry_t` and call `storage_flight_plan_set_st`. -/
def storage_flight_plan_set (c : FpCfg) (s : FpState) (timetodo : Int)
    (command args : String) (executions period node : Int) : Int × FpState :=
  if timetodo < 0 then (SCH_ST_ERROR, s)
  else storage_flight_plan_set_st c s ⟨timetodo, executions, period, node, command, args⟩

/-- `storage_flight_plan_get_idx`: reject out-of-range or tombstoned slots,
otherwise read the container at the recorded flash address. -/
def storage_flight_plan_get_idx (c : FpCfg) (s : FpState) (index : Nat) :
    Int × Option FpEntrySt :=
  if c.nMax ≤ index then (SCH_ST_ERROR, none)
  else if (s.tlb index).unixtime = ST_FP_NULL then (SCH_ST_ERROR, none)
  else
    let e := s.flash (s.tlb index).addr
    (SCH_ST_OK, some ⟨e.unixtime, e.executions, e.periodical, e.node, e.cmd, e.args⟩)

/-- `storage_flight_plan_get_st`: locate the slot by time, then read by index. -/
def storage_flight_plan_get_st (c : FpCfg) (s : FpState) (timetodo : Int) :
    Int × Option FpEntrySt :=
  let index := storage_flightplan_find_index_tlb c s timetodo
  if index < 0 then (SCH_ST_ERROR, none)
  else storage_flight_plan_get_idx c s index.toNat

/-- `storage_flight_plan_get_args`: copies the fields of
`storage_flight_plan_get_st` into caller buffers; the lookup itself is
`storage_flight_plan_get_st`. -/
def storage_flight_plan_get_args (c : FpCfg) (s : FpState) (timetodo : Int) :
    Int × Option FpEntrySt :=
  storage_flight_plan_get_st c s timetodo

/-- `storage_flight_plan_delete_row_idx`: bounds check, then tombstone the
TLB slot. -/
def storage_flight_plan_delete_row_idx (c : FpCfg) (s : FpState) (index : Int) :
    Int × FpState :=
  if (c.nMax : Int) ≤ index then (SCH_ST_ERROR, s)
  else flight_plan_erase_index_tlb c s index

/-- `storage_flight_plan_delete_row`: locate the slot by time, then delete
by index. -/
def storage_flight_plan_delete_row (c : FpCfg) (s : FpState) (timetodo : Int) :
    Int × FpState :=
  let index := storage_flightplan_find_index_tlb c s timetodo
  if index < 0 then (SCH_ST_ERROR, s)
  else storage_flight_plan_delete_row_idx c s index

/-- `storage_flight_plan_reset`: erase all flight-plan sections, memset the
TLB to all-0xFF (tombstones), zero the metadata slot, persist the whole TLB. -/
def storage_flight_plan_reset (c : FpCfg) (s : FpState) : Int × FpState :=
  let flash1 := (List.range c.fpSections).foldl
    (fun f i => storage_erase_flash c f (c.fpAddr i)) s.flash
  let tlb1 : Nat → FpAddrEntry := fun k => if k ≤ c.nMax then fpTombstone else s.tlb k
  let tlb2 := Function.update tlb1 c.nMax (⟨0, 0⟩ : FpAddrEntry)
  let s1 : FpState := {s with flash := flash1, tlb := tlb2}
  (SCH_ST_OK, storage_flightplan_dump_tlb c s1 (-1))

/-! ### Repository facade (repoData.c) -/

/-- Static facade configuration: the engine configuration, the status-table
length `N_vars`, the enum address of `dat_fpl_queue`, and `SCH_COMM_NODE`. -/
structure RepoCfg where
  fp : FpCfg
  nVars : Nat
  fplQueueIdx : Nat
  node : Int
deriving DecidableEq

/-- Combined facade state: engine state plus the status-table FRAM region. -/
structure RepoState where
  fp : FpState
  status : Nat → Int

/-- `dat_set_fp`: read `dat_fpl_queue`, insert, and on `SCH_ST_OK` store the
incremented count. -/
def dat_set_fp (cfg : RepoCfg) (st : RepoState) (timetodo : Int) (command args : String)
    (executions periodical : Int) : Int × RepoState :=
  let entries := dat_get_status_var cfg.nVars st.status cfg.fplQueueIdx
  let r := storage_flight_plan_set cfg.fp st.fp timetodo command args executions periodical cfg.node
  if r.1 = SCH_ST_OK then
    (r.1, ⟨r.2, dat_set_status_var cfg.nVars st.status cfg.fplQueueIdx (entries + 1)⟩)
  else (r.1, ⟨r.2, st.status⟩)

/-- `dat_get_fp`: read the entry, delete it on success, and when both steps
return `SCH_ST_OK` store the decremented count. -/
def dat_get_fp (cfg : RepoCfg) (st : RepoState) (elapsedSec : Int) : Int × RepoState :=
  let entries := dat_get_status_var cfg.nVars st.status cfg.fplQueueIdx
  let rc1 := (storage_flight_plan_get_args cfg.fp st.fp elapsedSec).1
  let r2 := if rc1 = SCH_ST_OK then storage_flight_plan_delete_row cfg.fp st.fp elapsedSec
            else (rc1, st.fp)
  if r2.1 = SCH_ST_OK then
    (r2.1, ⟨r2.2, dat_set_status_var cfg.nVars st.status cfg.fplQueueIdx (entries - 1)⟩)
  else (r2.1, ⟨r2.2, st.status⟩)

/-- `dat_del_fp`: delete by time; on `SCH_ST_OK` store the decremented count. -/
def dat_del_fp (cfg : RepoCfg) (st : RepoState) (timetodo : Int) : Int × RepoState :=
  let entries := dat_get_status_var cfg.nVars st.status cfg.fplQueueIdx
  let r := storage_flight_plan_delete_row cfg.fp st.fp timetodo
  if r.1 = SCH_ST_OK then
    (r.1, ⟨r.2, dat_set_status_var cfg.nVars st.status cfg.fplQueueIdx (entries - 1)⟩)
  else (r.1, ⟨r.2, st.status⟩)

/-- `dat_reset_fp`: reset the flight plan; on `SCH_ST_OK` store 0. -/
def dat_reset_fp (cfg : RepoCfg) (st : RepoState) : Int × RepoState :=
  let r := storage_flight_plan_reset cfg.fp st.fp
  if r.1 = SCH_ST_OK then
    (r.1, ⟨r.2, dat_set_status_var cfg.nVars st.status cfg.fplQueueIdx 0⟩)
  else (r.1, ⟨r.2, st.status⟩)

/-- One iteration of the `dat_purge_fp` loop.  The accumulator is
`(fp_entries, engine state, fp_i.unixtime)`: the C local `fp_i` is declared
outside the loop, so after a failed `storage_flight_plan_get_idx` the
`else if (fp_i.unixtime != ST_FP_NULL)` test reads the stale value from the
previous iteration (indeterminate on the first); it is threaded explicitly. -/
def datPurgeStep (c : FpCfg) (timeMin : Int) (acc : Nat × FpState × Int) (i : Nat) :
    Nat × FpState × Int :=
  let cnt := acc.1
  let fp := acc.2.1
  let lastUnixtime := acc.2.2
  let r := storage_flight_plan_get_idx c fp i
  let u := match r.2 with
    | some row => row.unixtime
    | none => lastUnixtime
  if r.1 = SCH_ST_OK ∧ timeMin < u then (cnt + 1, fp, u)
  else if u ≠ ST_FP_NULL then (cnt, (storage_flight_plan_delete_row_idx c fp (i : Int)).2, u)
  else (cnt, fp, u)

/-- `dat_purge_fp`: `time_min = now + 1`; scan all slots counting entries with
`unixtime > time_min`, deleting the others whose (possibly stale) `unixtime`
is not `ST_FP_NULL`; finally store the count in `dat_fpl_queue`.  `now` is
`dat_get_time()` and `fpInit` the indeterminate initial `fp_i.unixtime`. -/
def dat_purge_fp (cfg : RepoCfg) (st : RepoState) (now : Int) (fpInit : Int) :
    Int × RepoState :=
  let timeMin := now + 1
  let r := (List.range cfg.fp.nMax).foldl (datPurgeStep cfg.fp timeMin) (0, st.fp, fpInit)
  (SCH_ST_OK, ⟨r.2.1, dat_set_status_var cfg.nVars st.status cfg.fplQueueIdx (r.1 : Int)⟩)

/-! ### Payload store -/

/-- Static payload-store configuration: `ST_PAGE_SIZE`, `SCH_SIZE_PER_SECTION`,
`SCH_SECTIONS_PER_PAYLOAD`, `st_payloads_entries`, `st_payload_base_addr`,
`SCH_FLASH_INIT_MEMORY` and `st_flightplan_base_addr`. -/
structure PayCfg where
  pageSize : Nat
  sectionSize : Nat
  secPerPayload : Nat
  payEntries : Nat
  payBaseAddr : Nat
  flashInit : Nat
  fpBaseAddr : Nat
deriving DecidableEq

/-- `st_payload_addr[i] = st_payload_base_addr + i * SCH_SIZE_PER_SECTION`
(a `uint32_t`). -/
def PayCfg.payAddr (c : PayCfg) (i : Nat) : Nat := (c.payBaseAddr + i * c.sectionSize) % U32

/-- `_get_sample_address`, verbatim: the sample page index is
`index / samples_per_page` with no reduction modulo the pages per section.
When `samples_per_section` is zero the C division is undefined behaviour;
total `Nat` division models it. -/
def _get_sample_address (c : PayCfg) (payload index size : Nat) : Option Nat :=
  let samplesPerPage := c.pageSize / size
  if samplesPerPage = 0 then none
  else
    let samplePage := index / samplesPerPage
    let indexInPage := index % samplesPerPage
    let pagesInSection := c.sectionSize / c.pageSize
    let samplesPerSection := samplesPerPage * pagesInSection
    let sampleSection := index / samplesPerSection
    let sectionIndex := payload * c.secPerPayload + sampleSection
    if c.secPerPayload < sampleSection then none
    else if c.payEntries * c.secPerPayload < sectionIndex then none
    else
      let addr := (c.payAddr sectionIndex + samplePage * c.pageSize + indexInPage * size) % U32
      if c.flashInit + c.fpBaseAddr + c.payEntries * c.secPerPayload * c.sectionSize < addr
      then none
      else some addr

/-- `check_address_alignment`: error when `addr + size` (uint32) lands in a
later page than `addr`. -/
def check_address_alignment (c : PayCfg) (addr size : Nat) : Int :=
  if addr / c.pageSize < ((addr + size) % U32) / c.pageSize then SCH_ST_ERROR else SCH_ST_OK

/-- Byte-granular flash write (`memcpy` in the simulated backend). -/
def writeBytes (flash : Nat → Nat) (addr : Nat) (data : List Nat) : Nat → Nat :=
  fun a => if addr ≤ a ∧ a < addr + data.length then data.getD (a - addr) 0 else flash a

/-- Byte-granular flash read. -/
def readBytes (flash : Nat → Nat) (addr len : Nat) : List Nat :=
  (List.range len).map fun k => flash (addr + k)

/-- `write_data_with_check`: alignment check, then write. -/
def write_data_with_check (c : PayCfg) (flash : Nat → Nat) (addr : Nat) (data : List Nat)
    (size : Nat) : Int × (Nat → Nat) :=
  if check_address_alignment c addr size = SCH_ST_ERROR then (SCH_ST_ERROR, flash)
  else (SCH_ST_OK, writeBytes flash addr (data.take size))

/-- `read_data_with_check`: alignment check, then read. -/
def read_data_with_check (c : PayCfg) (flash : Nat → Nat) (addr size : Nat) :
    Int × List Nat :=
  if check_address_alignment c addr size = SCH_ST_ERROR then (SCH_ST_ERROR, [])
  else (SCH_ST_OK, readBytes flash addr size)

/-- `storage_payload_set_data`: address computation then checked write;
`size` is `schema->size`. -/
def storage_payload_set_data (c : PayCfg) (flash : Nat → Nat) (payload index : Nat)
    (data : List Nat) (size : Nat) : Int × (Nat → Nat) :=
  match _get_sample_address c payload index size with
  | none => (SCH_ST_ERROR, flash)
  | some addr =>
    let r := write_data_with_check c flash addr data size
    if r.1 ≠ SCH_ST_ERROR then (SCH_ST_OK, r.2) else (SCH_ST_ERROR, flash)

/-- `storage_payload_get_data`: address computation then checked read. -/
def storage_payload_get_data (c : PayCfg) (flash : Nat → Nat) (payload index : Nat)
    (size : Nat) : Int × List Nat :=
  match _get_sample_address c payload index size with
  | none => (SCH_ST_ERROR, [])
  | some addr =>
    let r := read_data_with_check c flash addr size
    if r.1 ≠ SCH_ST_ERROR then (SCH_ST_OK, r.2) else (SCH_ST_ERROR, [])

/-- The payload sample address exactly as the spec's section 3 formula writes
it (the spec-side reference for the refinement comparison, following the
spec's words, not the source):
`base[p*K + i / samples_per_section]
 + ((i / samples_per_page) mod (SECTION/PAGE)) * PAGE
 + (i mod samples_per_page) * size`. -/
def specSampleAddress (c : PayCfg) (payload index size : Nat) : Nat :=
  let samplesPerPage := c.pageSize / size
  let samplesPerSection := samplesPerPage * (c.sectionSize / c.pageSize)
  c.payAddr (payload * c.secPerPayload + index / samplesPerSection)
    + ((index / samplesPerPage) % (c.sectionSize / c.pageSize)) * c.pageSize
    + (index % samplesPerPage) * size

/-- The amended address formula, as the source computes it: the page-offset
term is `(i / samples_per_page) * PAGE`, not reduced modulo `SECTION/PAGE`
(`uint32_t` arithmetic). -/
def amendedSampleAddress (c : PayCfg) (payload index size : Nat) : Nat :=
  let samplesPerPage := c.pageSize / size
  let samplesPerSection := samplesPerPage * (c.sectionSize / c.pageSize)
  (c.payAddr (payload * c.secPerPayload + index / samplesPerSection)
    + (index / samplesPerPage) * c.pageSize
    + (index % samplesPerPage) * size) % U32

/-! ### Operation sequences over the flight-plan engine -/

/-- One facade-level flight-plan operation. -/
inductive FpOp where
  | set (row : FpEntrySt)
  | getSt (t : Int)
  | getIdx (k : Nat)
  | delRow (t : Int)
  | delIdx (k : Int)

/-- Run one operation on the engine state.  The get operations read flash and
the TLB but mutate nothing. -/
def runFpOp (c : FpCfg) (s : FpState) : FpOp → FpState
  | FpOp.set row => (storage_flight_plan_set_st c s row).2
  | FpOp.getSt _ => s
  | FpOp.getIdx _ => s
  | FpOp.delRow t => (storage_flight_plan_delete_row c s t).2
  | FpOp.delIdx k => (storage_flight_plan_delete_row_idx c s k).2

/-- Run a sequence of operations. -/
def runFpOps (c : FpCfg) (s : FpState) (ops : List FpOp) : FpState :=
  ops.foldl (runFpOp c) s

/-- Precondition under which an operation is compaction-free: a `set` must
start with the metadata counter at most `commands_per_section` (so the
rebuild guard stays false); the other operations never compact. -/
def fpOpPre (c : FpCfg) (s : FpState) : FpOp → Bool
  | FpOp.set _ => decide (fpCounter c s ≤ c.cps)
  | _ => true

/-- A trace triggers no compaction: at each `set`, the metadata counter does
not exceed `commands_per_section`. -/
def noCompactionTraceB (c : FpCfg) : FpState → List FpOp → Bool
  | _, [] => true
  | s, op :: rest => fpOpPre c s op && noCompactionTraceB c (runFpOp c s op) rest

/-! ### Concrete instances used by witnesses and counterexamples -/

/-- A small concrete engine configuration: 3 flight-plan slots, 4 commands
per section. -/
def fpCfg0 : FpCfg := ⟨3, 4, 262144, 262144⟩

/-- Erased flash. -/
def emptyFlash : Nat → FpContainer := fun _ => FpContainer.zero

/-- Engine state just after a reset: all slots tombstoned, counter 0. -/
def emptyTlbState : FpState :=
  ⟨fun k => if k = 3 then ⟨0, 0⟩ else fpTombstone, emptyFlash, fun _ => fpTombstone⟩

/-- Engine state with no live entries but append counter 4 (equal to
`commands_per_section` of `fpCfg0`). -/
def fpStateCounterFour : FpState :=
  ⟨fun k => if k = 3 then ⟨4, 0⟩ else fpTombstone, emptyFlash, fun _ => fpTombstone⟩

/-- A sample flight-plan row. -/
def fpRow0 : FpEntrySt := ⟨100, 1, 0, 1, "ping", ""⟩

/-- A concrete facade configuration over `fpCfg0` with 10 status variables,
`dat_fpl_queue` at enum address 7, node 1. -/
def repoCfg0 : RepoCfg := ⟨fpCfg0, 10, 7, 1⟩

/-- A facade state with an empty flight plan and zeroed status table. -/
def repoState0 : RepoState := ⟨emptyTlbState, fun _ => 0⟩

/-- Flash container of a command scheduled at unixtime 1001. -/
def fpCont1001 : FpContainer := ⟨1001, 1, 0, 1, "ping", ""⟩

/-- Facade state holding one live flight-plan entry at unixtime 1001, stored
at flash address 262144 and consistent with the TLB; counter 1. -/
def purgeState : RepoState :=
  ⟨⟨fun k => if k = 0 then ⟨262144, 1001⟩ else if k = 3 then ⟨1, 0⟩ else fpTombstone,
    Function.update emptyFlash 262144 fpCont1001,
    fun _ => fpTombstone⟩,
   fun _ => 0⟩

/-- Flash containers for entries at unixtimes 500, 1500 and 2500. -/
def fpCont500 : FpContainer := ⟨500, 1, 0, 1, "a", ""⟩

/-- Entry at unixtime 1500. -/
def fpCont1500 : FpContainer := ⟨1500, 1, 0, 1, "b", ""⟩

/-- Entry at unixtime 2500. -/
def fpCont2500 : FpContainer := ⟨2500, 1, 0, 1, "c", ""⟩

/-- Facade state holding live entries at unixtimes 500, 1500 and 2500
(the spec's purge scenario), consistent between TLB and flash. -/
def purgeState3 : RepoState :=
  ⟨⟨fun k =>
      if k = 0 then ⟨262144, 500⟩
      else if k = 1 then ⟨262656, 1500⟩
      else if k = 2 then ⟨263168, 2500⟩
      else ⟨3, 0⟩,
    Function.update (Function.update (Function.update emptyFlash 262144 fpCont500)
      262656 fpCont1500) 263168 fpCont2500,
    fun _ => fpTombstone⟩,
   fun _ => 0⟩

/-- The payload configuration of the spec's examples: `PAGE = 512`,
`SECTION = 262144`, 2 sections per payload, one payload, payload base just
past one TLB section and one flight-plan section. -/
def payCfg3 : PayCfg := ⟨512, 262144, 2, 1, 524288, 0, 262144⟩

/-- Same layout with two payloads (so the in-range second section of payload
0 passes the final bound check). -/
def payCfg5 : PayCfg := ⟨512, 262144, 2, 2, 524288, 0, 262144⟩

/-- Zeroed payload flash. -/
def payFlash0 : Nat → Nat := fun _ => 0

/-- A 200-byte sample record. -/
def payData0 : List Nat := List.replicate 200 0

/-- A short compaction-free operation sequence: one insertion, one deletion. -/
def opsW : List FpOp := [FpOp.set fpRow0, FpOp.delIdx 0]

/-! ### Helper lemmas -/

/-- Reading any index back after a triple write returns the written value:
all three physical copies are written, so the vote is unanimous. -/
lemma dat_status_roundtrip (n : Nat) (fram : Nat → Int) (i : Nat) (v : Int) :
    dat_get_status_var n (dat_set_status_var n fram i v) i = v := by
  simp [dat_get_status_var, dat_set_status_var, storage_status_get_value_idx,
    storage_status_set_value_idx, Function.update_apply]

/-- Dumping the TLB to FRAM does not change the in-RAM TLB. -/
lemma dump_tlb_tlb (c : FpCfg) (s : FpState) (i : Int) :
    (storage_flightplan_dump_tlb c s i).tlb = s.tlb := by
  unfold storage_flightplan_dump_tlb; split <;> rfl

/-- Dumping the TLB to FRAM does not change flash. -/
lemma dump_tlb_flash (c : FpCfg) (s : FpState) (i : Int) :
    (storage_flightplan_dump_tlb c s i).flash = s.flash := by
  unfold storage_flightplan_dump_tlb; split <;> rfl

/-- The TLB search returns `-1` or an in-range slot holding the sought time. -/
lemma find_index_tlb_cases (c : FpCfg) (s : FpState) (t : Int) :
    storage_flightplan_find_index_tlb c s t = -1
    ∨ (0 ≤ storage_flightplan_find_index_tlb c s t
        ∧ storage_flightplan_find_index_tlb c s t < (c.nMax : Int)
        ∧ (s.tlb (storage_flightplan_find_index_tlb c s t).toNat).unixtime = t) := by
  unfold storage_flightplan_find_index_tlb
  cases h : (List.range c.nMax).find? (fun i => decide ((s.tlb i).unixtime = t)) with
  | none => exact Or.inl rfl
  | some i =>
    right
    have hmem : i ∈ List.range c.nMax := List.mem_of_find?_eq_some h
    have hlt : i < c.nMax := List.mem_range.mp hmem
    have hp : (s.tlb i).unixtime = t := by
      have := List.find?_some h
      simpa using this
    refine ⟨Int.natCast_nonneg i, ?_, ?_⟩
    · show (i : Int) < (c.nMax : Int)
      exact_mod_cast hlt
    · show (s.tlb ((i : Int)).toNat).unixtime = t
      rw [Int.toNat_natCast]
      exact hp

/-- Effect of `storage_flight_plan_delete_row_idx` at a valid index: the slot
is tombstoned in the TLB and in its FRAM backup, flash is untouched, and the
call reports `SCH_ST_OK`. -/
lemma delete_row_idx_parts (c : FpCfg) (s : FpState) (k : Nat) (hk : k < c.nMax) :
    (storage_flight_plan_delete_row_idx c s (k : Int)).1 = SCH_ST_OK
    ∧ (storage_flight_plan_delete_row_idx c s (k : Int)).2.tlb
        = Function.update s.tlb k fpTombstone
    ∧ (storage_flight_plan_delete_row_idx c s (k : Int)).2.framTlb
        = Function.update s.framTlb k fpTombstone
    ∧ (storage_flight_plan_delete_row_idx c s (k : Int)).2.flash = s.flash := by
  have h1 : ¬((c.nMax : Int) ≤ (k : Int)) := by omega
  have h2 : ¬(((k : Int)) < 0 ∨ (c.nMax : Int) ≤ (k : Int)) := by omega
  have h3 : ¬(((k : Int)) < 0) := by omega
  have ht : ((k : Int)).toNat = k := by omega
  unfold storage_flight_plan_delete_row_idx flight_plan_erase_index_tlb
    storage_flightplan_dump_tlb
  rw [if_neg h1, if_neg h2]
  refine ⟨rfl, ?_, ?_, ?_⟩
  · simp [ht, if_neg h3]
  · simp only [ht, if_neg h3]
    funext j
    by_cases hj : j = k
    · subst hj; simp [Function.update_same]
    · simp [Function.update_noteq hj]
  · simp [ht, if_neg h3]

/-- Deleting (at any index, in or out of bounds) never changes flash. -/
lemma delete_row_idx_flash (c : FpCfg) (s : FpState) (k : Int) :
    (storage_flight_plan_delete_row_idx c s k).2.flash = s.flash := by
  unfold storage_flight_plan_delete_row_idx flight_plan_erase_index_tlb
  split
  · rfl
  · split
    · rfl
    · simp [dump_tlb_flash]

/-- Deleting never changes the metadata counter: the erased slot is strictly
below `nMax`. -/
lemma erase_index_counter (c : FpCfg) (s : FpState) (k : Int) :
    fpCounter c (flight_plan_erase_index_tlb c s k).2 = fpCounter c s := by
  unfold flight_plan_erase_index_tlb
  split
  · rfl
  · next h =>
    push_neg at h
    have hk : k.toNat ≠ c.nMax := by omega
    simp [fpCounter, dump_tlb_tlb, Function.update_noteq (Ne.symm hk)]

/-- Counter after `storage_flight_plan_delete_row_idx` is unchanged. -/
lemma delete_row_idx_counter (c : FpCfg) (s : FpState) (k : Int) :
    fpCounter c (storage_flight_plan_delete_row_idx c s k).2 = fpCounter c s := by
  unfold storage_flight_plan_delete_row_idx
  split
  · rfl
  · exact erase_index_counter c s k

/-- Counter after `storage_flight_plan_delete_row` is unchanged. -/
lemma delete_row_counter (c : FpCfg) (s : FpState) (t : Int) :
    fpCounter c (storage_flight_plan_delete_row c s t).2 = fpCounter c s := by
  show fpCounter c (if storage_flightplan_find_index_tlb c s t < 0 then (SCH_ST_ERROR, s)
    else storage_flight_plan_delete_row_idx c s (storage_flightplan_find_index_tlb c s t)).2
    = fpCounter c s
  split
  · rfl
  · exact delete_row_idx_counter c s _

/-- `storage_flightplan_update_tlb` at a slot other than the metadata slot
bumps the counter by one modulo `2 ^ 32`. -/
lemma update_tlb_counter (c : FpCfg) (s : FpState) (idx : Nat) (t : Int) (a : Nat)
    (h : idx ≠ c.nMax) :
    fpCounter c (storage_flightplan_update_tlb c s idx t a).2 = (1 + fpCounter c s) % U32 := by
  unfold storage_flightplan_update_tlb fpCounter
  simp [dump_tlb_tlb, Function.update_same, Function.update_noteq (Ne.symm h)]

/-- `fpSetBody` either fails leaving the state unchanged, or reports
`SCH_ST_OK` with the counter bumped by one modulo `2 ^ 32`. -/
lemma fpSetBody_cases (c : FpCfg) (s : FpState) (row : FpEntrySt) :
    (fpSetBody c s row = (SCH_ST_ERROR, s))
    ∨ ((fpSetBody c s row).1 = SCH_ST_OK
        ∧ fpCounter c (fpSetBody c s row).2 = (1 + fpCounter c s) % U32) := by
  unfold fpSetBody
  rcases find_index_tlb_cases c s ST_FP_NULL with hf | ⟨hge, hlt, _⟩
  · rw [hf]; left; simp
  · rw [if_neg (by omega)]
    have hidx : (storage_flightplan_find_index_tlb c s ST_FP_NULL).toNat ≠ c.nMax := by omega
    right
    constructor
    · rfl
    · show fpCounter c {(storage_flightplan_update_tlb c s _ row.unixtime _).2 with
        flash := _} = _
      rw [show fpCounter c {(storage_flightplan_update_tlb c s
          (storage_flightplan_find_index_tlb c s ST_FP_NULL).toNat row.unixtime
          ((c.fpAddr (fpCounter c s / c.cps) + fpCounter c s % c.cps * 512) % U32)).2 with
          flash := Function.update (storage_flightplan_update_tlb c s
            (storage_flightplan_find_index_tlb c s ST_FP_NULL).toNat row.unixtime
            ((c.fpAddr (fpCounter c s / c.cps) + fpCounter c s % c.cps * 512) % U32)).2.flash
            ((c.fpAddr (fpCounter c s / c.cps) + fpCounter c s % c.cps * 512) % U32)
            ⟨row.unixtime, row.executions, row.periodical, row.node,
              row.cmd.take 248, row.args.take 248⟩}
          = fpCounter c (storage_flightplan_update_tlb c s
            (storage_flightplan_find_index_tlb c s ST_FP_NULL).toNat row.unixtime
            ((c.fpAddr (fpCounter c s / c.cps) + fpCounter c s % c.cps * 512) % U32)).2
          from rfl]
      exact update_tlb_counter c s _ row.unixtime _ hidx

/-- With the counter at most `commands_per_section`, `storage_flight_plan_set_st`
skips the rebuild and on success bumps the counter by exactly one (no
`uint32_t` wrap when `cps + 1 < 2 ^ 32`); on failure it leaves the whole
state unchanged. -/
lemma set_st_counter (c : FpCfg) (s : FpState) (row : FpEntrySt)
    (hle : fpCounter c s ≤ c.cps) (hU : c.cps + 1 < U32) :
    ((storage_flight_plan_set_st c s row).1 = SCH_ST_OK →
      fpCounter c (storage_flight_plan_set_st c s row).2 = fpCounter c s + 1)
    ∧ ((storage_flight_plan_set_st c s row).1 ≠ SCH_ST_OK →
      (storage_flight_plan_set_st c s row).2 = s) := by
  have hguard : fpSetRebuildGuard c s = false := by
    simp [fpSetRebuildGuard, Nat.not_lt.mpr hle]
  have hset : storage_flight_plan_set_st c s row = fpSetBody c s row := by
    unfold storage_flight_plan_set_st
    rw [hguard]
    rfl
  rw [hset]
  rcases fpSetBody_cases c s row with herr | ⟨hok, hcnt⟩
  · rw [herr]
    constructor
    · intro h
      rw [show ((SCH_ST_ERROR, s).1) = SCH_ST_ERROR from rfl] at h
      exact absurd h (by decide)
    · intro _
      rfl
  · constructor
    · intro _
      rw [hcnt, Nat.mod_eq_of_lt (by omega)]
      omega
    · intro h
      exact absurd hok h

/-- One operation of a no-compaction trace never decreases the counter. -/
lemma runFpOp_counter_mono (c : FpCfg) (hU : c.cps + 1 < U32) (s : FpState) (op : FpOp)
    (h : fpOpPre c s op = true) :
    fpCounter c s ≤ fpCounter c (runFpOp c s op) := by
  cases op with
  | set row =>
    have hle : fpCounter c s ≤ c.cps := by simpa [fpOpPre] using h
    obtain ⟨hok, hfail⟩ := set_st_counter c s row hle hU
    by_cases hrc : (storage_flight_plan_set_st c s row).1 = SCH_ST_OK
    · rw [show runFpOp c s (FpOp.set row) = (storage_flight_plan_set_st c s row).2 from rfl,
        hok hrc]
      omega
    · rw [show runFpOp c s (FpOp.set row) = (storage_flight_plan_set_st c s row).2 from rfl,
        hfail hrc]
  | getSt t => exact le_rfl
  | getIdx k => exact le_rfl
  | delRow t => exact le_of_eq (delete_row_counter c s t).symm
  | delIdx k => exact le_of_eq (delete_row_idx_counter c s k).symm

/-- The counter is monotone along any no-compaction trace. -/
lemma runFpOps_counter_mono (c : FpCfg) (hU : c.cps + 1 < U32) :
    ∀ (ops : List FpOp) (s : FpState), noCompactionTraceB c s ops = true →
      fpCounter c s ≤ fpCounter c (runFpOps c s ops) := by
  intro ops
  induction ops with
  | nil => intro s _; exact le_rfl
  | cons op rest ih =>
    intro s h
    rw [noCompactionTraceB, Bool.and_eq_true] at h
    have hstep := runFpOp_counter_mono c hU s op h.1
    have htail := ih (runFpOp c s op) h.2
    calc fpCounter c s ≤ fpCounter c (runFpOp c s op) := hstep
      _ ≤ fpCounter c (runFpOps c (runFpOp c s op) rest) := htail
      _ = fpCounter c (runFpOps c s (op :: rest)) := by rw [runFpOps, runFpOps, List.foldl_cons]

/-- `SCH_ST_ERROR` and `SCH_ST_OK` differ. -/
lemma st_error_ne_ok : SCH_ST_ERROR ≠ SCH_ST_OK := by decide

/-- Reading a live in-range slot returns the container at its flash address. -/
lemma get_idx_live (c : FpCfg) (s : FpState) (i : Nat) (hi : i < c.nMax)
    (hlive : (s.tlb i).unixtime ≠ ST_FP_NULL) :
    storage_flight_plan_get_idx c s i
      = (SCH_ST_OK, some ⟨(s.flash (s.tlb i).addr).unixtime,
          (s.flash (s.tlb i).addr).executions, (s.flash (s.tlb i).addr).periodical,
          (s.flash (s.tlb i).addr).node, (s.flash (s.tlb i).addr).cmd,
          (s.flash (s.tlb i).addr).args⟩) := by
  unfold storage_flight_plan_get_idx
  rw [if_neg (Nat.not_le.mpr hi), if_neg hlive]

/-- Reading a tombstoned slot fails. -/
lemma get_idx_tomb (c : FpCfg) (s : FpState) (i : Nat)
    (htomb : (s.tlb i).unixtime = ST_FP_NULL) :
    storage_flight_plan_get_idx c s i = (SCH_ST_ERROR, none) := by
  unfold storage_flight_plan_get_idx
  by_cases hi : c.nMax ≤ i
  · rw [if_pos hi]
  · rw [if_neg hi, if_pos htomb]

/-- Purge step on a live slot past the cutoff: counted and left alone. -/
lemma datPurgeStep_kept (c : FpCfg) (timeMin : Int) (cnt : Nat) (sF : FpState) (uL : Int)
    (i : Nat) (hi : i < c.nMax) (hlive : (sF.tlb i).unixtime ≠ ST_FP_NULL)
    (hkeep : timeMin < (sF.flash (sF.tlb i).addr).unixtime) :
    datPurgeStep c timeMin (cnt, sF, uL) i
      = (cnt + 1, sF, (sF.flash (sF.tlb i).addr).unixtime) := by
  simp only [datPurgeStep, get_idx_live c sF i hi hlive]
  rw [if_pos ⟨trivial, hkeep⟩]

/-- Purge step on a live slot at or before the cutoff: deleted. -/
lemma datPurgeStep_dropped (c : FpCfg) (timeMin : Int) (cnt : Nat) (sF : FpState) (uL : Int)
    (i : Nat) (hi : i < c.nMax) (hlive : (sF.tlb i).unixtime ≠ ST_FP_NULL)
    (hnkeep : ¬ timeMin < (sF.flash (sF.tlb i).addr).unixtime)
    (hne : (sF.flash (sF.tlb i).addr).unixtime ≠ ST_FP_NULL) :
    datPurgeStep c timeMin (cnt, sF, uL) i
      = (cnt, (storage_flight_plan_delete_row_idx c sF (i : Int)).2,
          (sF.flash (sF.tlb i).addr).unixtime) := by
  simp only [datPurgeStep, get_idx_live c sF i hi hlive]
  rw [if_neg (by intro h; exact hnkeep h.2), if_pos hne]

/-- Purge step on a tombstoned slot: the stale `fp_i.unixtime` decides
whether a (no-op) delete happens. -/
lemma datPurgeStep_tomb (c : FpCfg) (timeMin : Int) (cnt : Nat) (sF : FpState) (uL : Int)
    (i : Nat) (htomb : (sF.tlb i).unixtime = ST_FP_NULL) :
    datPurgeStep c timeMin (cnt, sF, uL) i
      = if uL ≠ ST_FP_NULL
        then (cnt, (storage_flight_plan_delete_row_idx c sF (i : Int)).2, uL)
        else (cnt, sF, uL) := by
  simp only [datPurgeStep, get_idx_tomb c sF i htomb]
  rw [if_neg (by intro h; exact st_error_ne_ok h.1)]

/-- Frame and effect of the `dat_purge_fp` scan over the first `n` slots,
starting from a state whose live TLB entries agree with flash on `unixtime`:
flash is untouched, unscanned slots are untouched, scanned live entries past
`time_min` survive unchanged, every other scanned slot ends with
`unixtime = ST_FP_NULL`, and the running count is the number of survivors. -/
lemma purge_fold_spec (c : FpCfg) (timeMin : Int) (s0 : FpState)
    (hcons : ∀ i, i < c.nMax → (s0.tlb i).unixtime ≠ ST_FP_NULL →
      (s0.flash (s0.tlb i).addr).unixtime = (s0.tlb i).unixtime) :
    ∀ n, n ≤ c.nMax → ∀ u0 : Int,
      ((List.range n).foldl (datPurgeStep c timeMin) (0, s0, u0)).2.1.flash = s0.flash
      ∧ (∀ j, n ≤ j →
          ((List.range n).foldl (datPurgeStep c timeMin) (0, s0, u0)).2.1.tlb j = s0.tlb j)
      ∧ (∀ j, j < n →
          ((s0.tlb j).unixtime ≠ ST_FP_NULL ∧ timeMin < (s0.tlb j).unixtime →
            ((List.range n).foldl (datPurgeStep c timeMin) (0, s0, u0)).2.1.tlb j = s0.tlb j)
          ∧ (¬((s0.tlb j).unixtime ≠ ST_FP_NULL ∧ timeMin < (s0.tlb j).unixtime) →
            (((List.range n).foldl (datPurgeStep c timeMin) (0, s0, u0)).2.1.tlb j).unixtime
              = ST_FP_NULL))
      ∧ ((List.range n).foldl (datPurgeStep c timeMin) (0, s0, u0)).1
          = (List.range n).countP
              (fun j => decide ((s0.tlb j).unixtime ≠ ST_FP_NULL
                ∧ timeMin < (s0.tlb j).unixtime)) := by
  intro n
  induction n with
  | zero =>
    intro _ u0
    exact ⟨rfl, fun j _ => rfl, fun j hj => absurd hj (Nat.not_lt_zero j), rfl⟩
  | succ n ih =>
    intro hn u0
    have hn' : n ≤ c.nMax := Nat.le_of_succ_le hn
    have hnlt : n < c.nMax := hn
    obtain ⟨ihflash, ihframe, ihdone, ihcnt⟩ := ih hn' u0
    have hsplit : (List.range (n + 1)).foldl (datPurgeStep c timeMin) (0, s0, u0)
        = datPurgeStep c timeMin
            ((List.range n).foldl (datPurgeStep c timeMin) (0, s0, u0)) n := by
      rw [List.range_succ, List.foldl_append, List.foldl_cons, List.foldl_nil]
    rcases hR : (List.range n).foldl (datPurgeStep c timeMin) (0, s0, u0) with ⟨cnt, sF, uL⟩
    rw [hR] at ihflash ihframe ihdone ihcnt hsplit
    have ihflash' : sF.flash = s0.flash := ihflash
    have ihcnt' : cnt = (List.range n).countP
        (fun j => decide ((s0.tlb j).unixtime ≠ ST_FP_NULL
          ∧ timeMin < (s0.tlb j).unixtime)) := ihcnt
    have hframen : sF.tlb n = s0.tlb n := ihframe n le_rfl
    have hcntsucc : (List.range (n + 1)).countP
        (fun j => decide ((s0.tlb j).unixtime ≠ ST_FP_NULL
          ∧ timeMin < (s0.tlb j).unixtime))
        = (List.range n).countP
            (fun j => decide ((s0.tlb j).unixtime ≠ ST_FP_NULL
              ∧ timeMin < (s0.tlb j).unixtime))
          + (if (s0.tlb n).unixtime ≠ ST_FP_NULL ∧ timeMin < (s0.tlb n).unixtime
             then 1 else 0) := by
      rw [List.range_succ, List.countP_append]
      simp [List.countP_cons]
    rw [hsplit]
    by_cases h1 : (s0.tlb n).unixtime = ST_FP_NULL
    · -- slot n is tombstoned: the stale-variable branch may re-tombstone it
      have hstep := datPurgeStep_tomb c timeMin cnt sF uL n (by rw [hframen]; exact h1)
      rw [hstep]
      by_cases hu : uL ≠ ST_FP_NULL
      · rw [if_pos hu]
        obtain ⟨_, htlb, _, hflash⟩ := delete_row_idx_parts c sF n hnlt
        refine ⟨by rw [hflash]; exact ihflash', ?_, ?_, ?_⟩
        · intro j hj
          rw [htlb, Function.update_noteq (by omega)]
          exact ihframe j (by omega)
        · intro j hj
          rcases Nat.lt_succ_iff_lt_or_eq.mp hj with hjlt | hjeq
          · refine ⟨fun hp => ?_, fun hp => ?_⟩
            · rw [htlb, Function.update_noteq (by omega)]
              exact (ihdone j hjlt).1 hp
            · rw [htlb, Function.update_noteq (by omega)]
              exact (ihdone j hjlt).2 hp
          · subst hjeq
            refine ⟨fun hp => absurd h1 hp.1, fun _ => ?_⟩
            rw [htlb, Function.update_same]
            rfl
        · show cnt = _
          rw [hcntsucc, if_neg (fun hp => hp.1 h1), ihcnt', Nat.add_zero]
      · rw [if_neg hu]
        refine ⟨ihflash', ?_, ?_, ?_⟩
        · intro j hj
          exact ihframe j (by omega)
        · intro j hj
          rcases Nat.lt_succ_iff_lt_or_eq.mp hj with hjlt | hjeq
          · exact ihdone j hjlt
          · subst hjeq
            exact ⟨fun hp => absurd h1 hp.1, fun _ => by rw [hframen]; exact h1⟩
        · show cnt = _
          rw [hcntsucc, if_neg (fun hp => hp.1 h1), ihcnt', Nat.add_zero]
    · -- slot n is live; its flash copy agrees on unixtime
      have hX : (sF.flash (sF.tlb n).addr).unixtime = (s0.tlb n).unixtime := by
        rw [ihflash', hframen]
        exact hcons n hnlt h1
      have hlive : (sF.tlb n).unixtime ≠ ST_FP_NULL := by rw [hframen]; exact h1
      by_cases hkeep : timeMin < (s0.tlb n).unixtime
      · have hstep := datPurgeStep_kept c timeMin cnt sF uL n hnlt hlive
          (by rw [hX]; exact hkeep)
        rw [hstep]
        refine ⟨ihflash', ?_, ?_, ?_⟩
        · intro j hj
          exact ihframe j (by omega)
        · intro j hj
          rcases Nat.lt_succ_iff_lt_or_eq.mp hj with hjlt | hjeq
          · exact ihdone j hjlt
          · subst hjeq
            exact ⟨fun _ => hframen, fun hp => absurd ⟨h1, hkeep⟩ hp⟩
        · show cnt + 1 = _
          rw [hcntsucc, if_pos ⟨h1, hkeep⟩, ihcnt']
      · have hstep := datPurgeStep_dropped c timeMin cnt sF uL n hnlt hlive
          (by rw [hX]; exact hkeep) (by rw [hX]; exact h1)
        rw [hstep]
        obtain ⟨_, htlb, _, hflash⟩ := delete_row_idx_parts c sF n hnlt
        refine ⟨by rw [hflash]; exact ihflash', ?_, ?_, ?_⟩
        · intro j hj
          rw [htlb, Function.update_noteq (by omega)]
          exact ihframe j (by omega)
        · intro j hj
          rcases Nat.lt_succ_iff_lt_or_eq.mp hj with hjlt | hjeq
          · refine ⟨fun hp => ?_, fun hp => ?_⟩
            · rw [htlb, Function.update_noteq (by omega)]
              exact (ihdone j hjlt).1 hp
            · rw [htlb, Function.update_noteq (by omega)]
              exact (ihdone j hjlt).2 hp
          · subst hjeq
            refine ⟨fun hp => absurd hp.2 hkeep, fun _ => ?_⟩
            rw [htlb, Function.update_same]
            rfl
        · show cnt = _
          rw [hcntsucc, if_neg (fun hp => hkeep hp.2), ihcnt', Nat.add_zero]

/-! ### Claim theorems -/

/-- C1 counterexample: with `commands_per_section = 4` and the metadata
counter exactly 4 (so `counter ≥ commands_per_section` holds), the rebuild
guard of `storage_flight_plan_set_st` is false, the call runs the plain body
with the unrebuilt state, and the new entry is appended at physical index 4
(counter advances to 5) — no compaction happened, contradicting the claim
that the rebuild is invoked whenever the counter is at least
`commands_per_section`. -/
theorem suchai_C1_counterexample :
    fpCounter fpCfg0 fpStateCounterFour = fpCfg0.cps
    ∧ fpSetRebuildGuard fpCfg0 fpStateCounterFour = false
    ∧ storage_flight_plan_set_st fpCfg0 fpStateCounterFour fpRow0
        = fpSetBody fpCfg0 fpStateCounterFour fpRow0
    ∧ fpCounter fpCfg0 (storage_flight_plan_set_st fpCfg0 fpStateCounterFour fpRow0).2 = 5 := by
  refine ⟨by decide, by decide, rfl, by decide⟩

/-- C1 (amended): in `storage_flight_plan_set_st` the rebuild (compaction) is
invoked exactly when at the start of the call the TLB metadata counter is
strictly greater than `commands_per_section`; in particular for every counter
value at most `commands_per_section` (equality included) no rebuild occurs and
the call runs the plain insertion body. -/
theorem suchai_C1_rebuild_threshold (c : FpCfg) (s : FpState) (row : FpEntrySt) :
    (fpSetRebuildGuard c s = true ↔ c.cps < fpCounter c s)
    ∧ (fpCounter c s ≤ c.cps → storage_flight_plan_set_st c s row = fpSetBody c s row) := by
  constructor
  · simp [fpSetRebuildGuard]
  · intro h
    unfold storage_flight_plan_set_st
    rw [show fpSetRebuildGuard c s = false by simp [fpSetRebuildGuard, Nat.not_lt.mpr h]]
    rfl

/-- C1 witness: at counter 0 the amended theorem applies and the set call is
the plain body. -/
theorem suchai_C1_witness :
    storage_flight_plan_set_st fpCfg0 emptyTlbState fpRow0
      = fpSetBody fpCfg0 emptyTlbState fpRow0 :=
  (suchai_C1_rebuild_threshold fpCfg0 emptyTlbState fpRow0).2 (by decide)

/-- C2: triple-write round-trip.  With triple redundancy, for a status index
whose three physical copies live at distinct FRAM addresses (no `uint16_t`
wrap), writing `v` and reading back returns `v`; after overwriting any single
one of the three physical copies with a different value the voted read still
returns `v`; and on any FRAM contents whatsoever the read is total, returning
one of the three stored copies (so two corrupted copies cannot make the call
abort). -/
theorem suchai_C2_triple_roundtrip (n : Nat) (fram : Nat → Int) (i : Nat) (v : Int)
    (hn : 0 < n) (hb : (i + 2 * n) * 4 < 65536) :
    dat_get_status_var n (dat_set_status_var n fram i v) i = v
    ∧ (∀ cpy, cpy < 3 → ∀ w, w ≠ v →
        dat_get_status_var n
          (storage_status_set_value_idx (dat_set_status_var n fram i v) (i + cpy * n) w) i = v)
    ∧ (∀ g : Nat → Int,
        dat_get_status_var n g i = storage_status_get_value_idx g i
        ∨ dat_get_status_var n g i = storage_status_get_value_idx g (i + n)
        ∨ dat_get_status_var n g i = storage_status_get_value_idx g (i + 2 * n)) := by
  have h0 : framAddrOf i = i * 4 := Nat.mod_eq_of_lt (by omega)
  have h1 : framAddrOf (i + n) = (i + n) * 4 := Nat.mod_eq_of_lt (by omega)
  have h2 : framAddrOf (i + 2 * n) = (i + 2 * n) * 4 := Nat.mod_eq_of_lt (by omega)
  have d01 : framAddrOf i ≠ framAddrOf (i + n) := by rw [h0, h1]; omega
  have d02 : framAddrOf i ≠ framAddrOf (i + 2 * n) := by rw [h0, h2]; omega
  have d12 : framAddrOf (i + n) ≠ framAddrOf (i + 2 * n) := by rw [h1, h2]; omega
  refine ⟨dat_status_roundtrip n fram i v, ?_, ?_⟩
  · intro cpy hc w hw
    interval_cases cpy
    · simp [dat_get_status_var, dat_set_status_var, storage_status_get_value_idx,
        storage_status_set_value_idx, Function.update_apply, d01, d02, d12,
        Ne.symm d01, Ne.symm d02, Ne.symm d12, hw]
    · simp [dat_get_status_var, dat_set_status_var, storage_status_get_value_idx,
        storage_status_set_value_idx, Function.update_apply, d01, d02, d12,
        Ne.symm d01, Ne.symm d02, Ne.symm d12, hw]
    · simp [dat_get_status_var, dat_set_status_var, storage_status_get_value_idx,
        storage_status_set_value_idx, Function.update_apply, d01, d02, d12,
        Ne.symm d01, Ne.symm d02, Ne.symm d12, hw]
  · intro g
    simp only [dat_get_status_var]
    split_ifs <;> tauto

/-- C2 witness: concrete round-trip at index 7 of a 10-variable table. -/
theorem suchai_C2_witness :
    dat_get_status_var 10 (dat_set_status_var 10 (fun _ => 0) 7 165) 7 = 165 :=
  (suchai_C2_triple_roundtrip 10 (fun _ => 0) 7 165 (by decide) (by decide)).1

/-- C3 counterexample: with `PAGE = 512` and record size 200,
`storage_payload_set_data` at sample index 2 returns `SCH_ST_OK`, not an
error — the addressing scheme places index 2 at the start of the next page,
so no record ever occupies bytes 400–599. -/
theorem suchai_C3_counterexample :
    (storage_payload_set_data payCfg3 payFlash0 0 2 payData0 200).1 = SCH_ST_OK
    ∧ SCH_ST_OK ≠ SCH_ST_ERROR := by
  refine ⟨by decide, by decide⟩

/-- C3 (amended): with `PAGE = 512` and a payload schema of record size 200,
`storage_payload_set_data` succeeds for sample indexes 0, 1, 2 and 3; index 1
is placed at in-page offset 200, and index 2 is placed at offset 512 (the
start of the next page, not bytes 400–599), so no write crosses a page
boundary. -/
theorem suchai_C3_page_boundary :
    (storage_payload_set_data payCfg3 payFlash0 0 0 payData0 200).1 = SCH_ST_OK
    ∧ (storage_payload_set_data payCfg3 payFlash0 0 1 payData0 200).1 = SCH_ST_OK
    ∧ (storage_payload_set_data payCfg3 payFlash0 0 2 payData0 200).1 = SCH_ST_OK
    ∧ (storage_payload_set_data payCfg3 payFlash0 0 3 payData0 200).1 = SCH_ST_OK
    ∧ _get_sample_address payCfg3 0 1 200 = some (payCfg3.payAddr 0 + 200)
    ∧ _get_sample_address payCfg3 0 2 200 = some (payCfg3.payAddr 0 + 512) := by
  refine ⟨by decide, by decide, by decide, by decide, by decide, by decide⟩

/-- C4 counterexample: with current time `now = 1000`, a consistent state
holding one live entry at unixtime 1001 (which is `> now`, so the claim says
it stays live and retrievable with `fpl_queue = 1`): `dat_purge_fp` deletes
it (the code keeps only entries with `unixtime > now + 1`) and writes 0 to
`fpl_queue`. -/
theorem suchai_C4_counterexample :
    (purgeState.fp.tlb 0).unixtime = 1001
    ∧ ((1000 : Int) < 1001)
    ∧ (storage_flight_plan_get_idx repoCfg0.fp
        ((dat_purge_fp repoCfg0 purgeState 1000 0).2).fp 0).1 = SCH_ST_ERROR
    ∧ dat_get_status_var 10 ((dat_purge_fp repoCfg0 purgeState 1000 0).2).status 7 = 0 := by
  refine ⟨by decide, by decide, by decide, by decide⟩

/-- C4 (amended): `dat_purge_fp`, started in a state whose live TLB entries
agree with flash on `unixtime`, deletes exactly the TLB entries with
`unixtime ≠ -1` and `unixtime ≤ now + 1` (where `now` is the current time:
the code computes `time_min = now + 1` and keeps only entries strictly past
it), leaves every entry with `unixtime > now + 1` live and retrievable,
touches no flash, and writes the number of remaining live entries to the
`fpl_queue` status variable. -/
theorem suchai_C4_purge (cfg : RepoCfg) (st : RepoState) (now u0 : Int)
    (hcons : ∀ i, i < cfg.fp.nMax → (st.fp.tlb i).unixtime ≠ ST_FP_NULL →
      (st.fp.flash (st.fp.tlb i).addr).unixtime = (st.fp.tlb i).unixtime) :
    (∀ j, j < cfg.fp.nMax →
      ((st.fp.tlb j).unixtime ≠ ST_FP_NULL ∧ (st.fp.tlb j).unixtime ≤ now + 1 →
        (((dat_purge_fp cfg st now u0).2).fp.tlb j).unixtime = ST_FP_NULL)
      ∧ ((st.fp.tlb j).unixtime ≠ ST_FP_NULL ∧ now + 1 < (st.fp.tlb j).unixtime →
          ((dat_purge_fp cfg st now u0).2).fp.tlb j = st.fp.tlb j
          ∧ (storage_flight_plan_get_idx cfg.fp ((dat_purge_fp cfg st now u0).2).fp j).1
              = SCH_ST_OK))
    ∧ ((dat_purge_fp cfg st now u0).2).fp.flash = st.fp.flash
    ∧ dat_get_status_var cfg.nVars ((dat_purge_fp cfg st now u0).2).status cfg.fplQueueIdx
        = ((List.range cfg.fp.nMax).countP
            (fun j => decide ((st.fp.tlb j).unixtime ≠ ST_FP_NULL
              ∧ now + 1 < (st.fp.tlb j).unixtime)) : Int) := by
  obtain ⟨hflash, hframe, hdone, hcnt⟩ :=
    purge_fold_spec cfg.fp (now + 1) st.fp hcons cfg.fp.nMax le_rfl u0
  have hfp : ((dat_purge_fp cfg st now u0).2).fp
      = ((List.range cfg.fp.nMax).foldl (datPurgeStep cfg.fp (now + 1))
          (0, st.fp, u0)).2.1 := rfl
  have hst : ((dat_purge_fp cfg st now u0).2).status
      = dat_set_status_var cfg.nVars st.status cfg.fplQueueIdx
          ((((List.range cfg.fp.nMax).foldl (datPurgeStep cfg.fp (now + 1))
            (0, st.fp, u0)).1 : Nat) : Int) := rfl
  refine ⟨?_, ?_, ?_⟩
  · intro j hj
    constructor
    · intro hdel
      rw [hfp]
      exact (hdone j hj).2 (fun hp => absurd hp.2 (by omega))
    · intro hkeep
      have htlbj := (hdone j hj).1 hkeep
      rw [hfp]
      refine ⟨htlbj, ?_⟩
      rw [get_idx_live cfg.fp _ j hj (by rw [htlbj]; exact hkeep.1)]
  · rw [hfp]
    exact hflash
  · rw [hst, dat_status_roundtrip, hcnt]

/-- C4 witness: the spec's purge scenario — live entries at unixtimes 500,
1500 and 2500 with current time 1000: after the purge the queue counter is 2. -/
theorem suchai_C4_witness :
    dat_get_status_var 10 ((dat_purge_fp repoCfg0 purgeState3 1000 0).2).status 7 = 2 := by
  have h := (suchai_C4_purge repoCfg0 purgeState3 1000 0 (by decide)).2.2
  exact h.trans (by decide)

/-- C5 counterexample: with `PAGE = 512`, `SECTION = 262144`, record size
200 and 2 sections per payload, sample 1024 of payload 0 falls in the
payload's second reserved section (`i / samples_per_section = 1 < K`), yet
the source computes address 1048576 = `base[1] + 262144`, while the spec's
formula (with the page term reduced modulo `SECTION/PAGE`) gives 786432 =
`base[1] + 0`. -/
theorem suchai_C5_counterexample :
    _get_sample_address payCfg5 0 1024 200 = some 1048576
    ∧ specSampleAddress payCfg5 0 1024 200 = 786432
    ∧ (1048576 : Nat) ≠ 786432
    ∧ 1024 / ((payCfg5.pageSize / 200) * (payCfg5.sectionSize / payCfg5.pageSize))
        < payCfg5.secPerPayload := by
  refine ⟨by decide, by decide, by decide, by decide⟩

/-- C5 (amended): every address `_get_sample_address` returns equals
`base[p·K + i / samples_per_section] + (i / samples_per_page) · PAGE
+ (i mod samples_per_page) · size` (modulo `2^32`) — the spec's formula
without the reduction of the page term modulo `SECTION/PAGE`;
`storage_payload_set_data` and `storage_payload_get_data` use this same
address and return the same status; and whenever the sample lies in the
payload's first section (`i / samples_per_page < SECTION/PAGE`) the source's
address coincides with the spec's formula. -/
theorem suchai_C5_sample_address (c : PayCfg) (payload index size : Nat) :
    (∀ a, _get_sample_address c payload index size = some a
      → a = amendedSampleAddress c payload index size)
    ∧ (∀ (flash : Nat → Nat) (data : List Nat),
        (storage_payload_set_data c flash payload index data size).1
          = (storage_payload_get_data c flash payload index size).1)
    ∧ (index / (c.pageSize / size) < c.sectionSize / c.pageSize →
        amendedSampleAddress c payload index size
          = specSampleAddress c payload index size % U32) := by
  refine ⟨?_, ?_, ?_⟩
  · intro a h
    simp only [_get_sample_address] at h
    split_ifs at h
    exact (Option.some.inj h).symm
  · intro flash data
    unfold storage_payload_set_data storage_payload_get_data
    cases h : _get_sample_address c payload index size with
    | none => rfl
    | some addr =>
      unfold write_data_with_check read_data_with_check
      by_cases hc : check_address_alignment c addr size = SCH_ST_ERROR
      · simp [hc]
      · simp only [if_neg hc, if_pos (show SCH_ST_OK ≠ SCH_ST_ERROR by decide)]
  · intro hlt
    simp only [amendedSampleAddress, specSampleAddress]
    rw [Nat.mod_eq_of_lt hlt]

/-- C5 witness: the amended formula evaluated for sample 2 of the size-200
schema gives in-page offset 512 at the first section. -/
theorem suchai_C5_witness :
    (524800 : Nat) = amendedSampleAddress payCfg3 0 2 200 :=
  (suchai_C5_sample_address payCfg3 0 2 200).1 524800 (by decide)

/-- C6: the `fpl_queue` counter is advanced only on success.  `dat_set_fp`
stores `entries + 1` exactly when the underlying insertion returns
`SCH_ST_OK`; `dat_get_fp` and `dat_del_fp` store `entries - 1` exactly when
the underlying get-and-delete (respectively delete) returns `SCH_ST_OK`;
`dat_reset_fp` stores 0 exactly when the underlying reset returns
`SCH_ST_OK`; on every error return the status table is left untouched. -/
theorem suchai_C6_counter_on_success (cfg : RepoCfg) (st : RepoState) (timetodo : Int)
    (command args : String) (executions periodical elapsedSec tdel : Int) :
    (((dat_set_fp cfg st timetodo command args executions periodical).1 = SCH_ST_OK →
        dat_get_status_var cfg.nVars
          (dat_set_fp cfg st timetodo command args executions periodical).2.status
          cfg.fplQueueIdx
          = dat_get_status_var cfg.nVars st.status cfg.fplQueueIdx + 1)
      ∧ ((dat_set_fp cfg st timetodo command args executions periodical).1 ≠ SCH_ST_OK →
        (dat_set_fp cfg st timetodo command args executions periodical).2.status = st.status))
    ∧ (((dat_get_fp cfg st elapsedSec).1 = SCH_ST_OK →
        dat_get_status_var cfg.nVars (dat_get_fp cfg st elapsedSec).2.status cfg.fplQueueIdx
          = dat_get_status_var cfg.nVars st.status cfg.fplQueueIdx - 1)
      ∧ ((dat_get_fp cfg st elapsedSec).1 ≠ SCH_ST_OK →
        (dat_get_fp cfg st elapsedSec).2.status = st.status))
    ∧ (((dat_del_fp cfg st tdel).1 = SCH_ST_OK →
        dat_get_status_var cfg.nVars (dat_del_fp cfg st tdel).2.status cfg.fplQueueIdx
          = dat_get_status_var cfg.nVars st.status cfg.fplQueueIdx - 1)
      ∧ ((dat_del_fp cfg st tdel).1 ≠ SCH_ST_OK →
        (dat_del_fp cfg st tdel).2.status = st.status))
    ∧ (((dat_reset_fp cfg st).1 = SCH_ST_OK →
        dat_get_status_var cfg.nVars (dat_reset_fp cfg st).2.status cfg.fplQueueIdx = 0)
      ∧ ((dat_reset_fp cfg st).1 ≠ SCH_ST_OK →
        (dat_reset_fp cfg st).2.status = st.status)) := by
  refine ⟨⟨?_, ?_⟩, ⟨?_, ?_⟩, ⟨?_, ?_⟩, ⟨?_, ?_⟩⟩
  · intro hok
    by_cases h : (storage_flight_plan_set cfg.fp st.fp timetodo command args
        executions periodical cfg.node).1 = SCH_ST_OK
    · simp [dat_set_fp, h, dat_status_roundtrip]
    · simp [dat_set_fp, h] at hok
  · intro hne
    by_cases h : (storage_flight_plan_set cfg.fp st.fp timetodo command args
        executions periodical cfg.node).1 = SCH_ST_OK
    · exact absurd (by simp [dat_set_fp, h]) hne
    · simp [dat_set_fp, h]
  · intro hok
    by_cases h1 : (storage_flight_plan_get_args cfg.fp st.fp elapsedSec).1 = SCH_ST_OK
    · by_cases h2 : (storage_flight_plan_delete_row cfg.fp st.fp elapsedSec).1 = SCH_ST_OK
      · simp [dat_get_fp, h1, h2, dat_status_roundtrip]
      · simp [dat_get_fp, h1, h2] at hok
    · simp [dat_get_fp, h1] at hok
  · intro hne
    by_cases h1 : (storage_flight_plan_get_args cfg.fp st.fp elapsedSec).1 = SCH_ST_OK
    · by_cases h2 : (storage_flight_plan_delete_row cfg.fp st.fp elapsedSec).1 = SCH_ST_OK
      · exact absurd (by simp [dat_get_fp, h1, h2]) hne
      · simp [dat_get_fp, h1, h2]
    · simp [dat_get_fp, h1]
  · intro hok
    by_cases h : (storage_flight_plan_delete_row cfg.fp st.fp tdel).1 = SCH_ST_OK
    · simp [dat_del_fp, h, dat_status_roundtrip]
    · simp [dat_del_fp, h] at hok
  · intro hne
    by_cases h : (storage_flight_plan_delete_row cfg.fp st.fp tdel).1 = SCH_ST_OK
    · exact absurd (by simp [dat_del_fp, h]) hne
    · simp [dat_del_fp, h]
  · intro hok
    simp [dat_reset_fp, storage_flight_plan_reset, dat_status_roundtrip]
  · intro hne
    exact absurd (by simp [dat_reset_fp, storage_flight_plan_reset]) hne

/-- C6 witness: a successful insertion into an empty flight plan stores the
incremented queue counter. -/
theorem suchai_C6_witness :
    dat_get_status_var 10 ((dat_set_fp repoCfg0 repoState0 100 "ping" "" 1 0).2).status 7
      = dat_get_status_var 10 repoState0.status 7 + 1 :=
  (suchai_C6_counter_on_success repoCfg0 repoState0 100 "ping" "" 1 0 0 0).1.1 (by decide)

/-- C7: flight-plan deletion only tombstones the TLB.  For every valid index
`k`, `storage_flight_plan_delete_row_idx` reports `SCH_ST_OK`, sets TLB slot
`k` to the tombstone `{addr = (uint32_t)(-1), unixtime = -1}`, persists
exactly that slot to the FRAM backup, performs no flash erase and no flash
write (flash is unchanged), and leaves every other TLB slot — including the
metadata slot and hence the counter — and every other backup slot untouched;
`storage_flight_plan_delete_row` at a time resolving to `k` is the same
operation. -/
theorem suchai_C7_delete_tombstone (c : FpCfg) (s : FpState) (k : Nat) (hk : k < c.nMax) :
    (storage_flight_plan_delete_row_idx c s (k : Int)).1 = SCH_ST_OK
    ∧ (storage_flight_plan_delete_row_idx c s (k : Int)).2.tlb k = fpTombstone
    ∧ (storage_flight_plan_delete_row_idx c s (k : Int)).2.framTlb k = fpTombstone
    ∧ (storage_flight_plan_delete_row_idx c s (k : Int)).2.flash = s.flash
    ∧ (∀ j, j ≠ k → (storage_flight_plan_delete_row_idx c s (k : Int)).2.tlb j = s.tlb j)
    ∧ (∀ j, j ≠ k →
        (storage_flight_plan_delete_row_idx c s (k : Int)).2.framTlb j = s.framTlb j)
    ∧ fpCounter c (storage_flight_plan_delete_row_idx c s (k : Int)).2 = fpCounter c s
    ∧ (∀ t, storage_flightplan_find_index_tlb c s t = (k : Int) →
        storage_flight_plan_delete_row c s t
          = storage_flight_plan_delete_row_idx c s (k : Int)) := by
  obtain ⟨hrc, htlb, hfram, hflash⟩ := delete_row_idx_parts c s k hk
  refine ⟨hrc, ?_, ?_, hflash, ?_, ?_, delete_row_idx_counter c s (k : Int), ?_⟩
  · rw [htlb, Function.update_same]
  · rw [hfram, Function.update_same]
  · intro j hj
    rw [htlb, Function.update_noteq hj]
  · intro j hj
    rw [hfram, Function.update_noteq hj]
  · intro t ht
    show (if storage_flightplan_find_index_tlb c s t < 0 then (SCH_ST_ERROR, s)
      else storage_flight_plan_delete_row_idx c s (storage_flightplan_find_index_tlb c s t))
      = _
    rw [ht, if_neg (by omega)]

/-- C7 witness: deleting the live slot 0 of the one-entry state tombstones
exactly that slot. -/
theorem suchai_C7_witness :
    (storage_flight_plan_delete_row_idx fpCfg0 purgeState.fp (0 : Int)).2.tlb 0
      = fpTombstone :=
  (suchai_C7_delete_tombstone fpCfg0 purgeState.fp 0 (by decide)).2.1

/-- C8: the TLB metadata counter never decreases under sequences of set, get
and delete operations that trigger no compaction (no reset occurs in such a
sequence).  Each `storage_flight_plan_set_st` starting with the counter at
most `commands_per_section` increments it by exactly one when it returns
`SCH_ST_OK` (via `storage_flightplan_update_tlb`) and leaves the state
unchanged otherwise; `flight_plan_erase_index_tlb` (tombstone deletion)
never changes the counter; and along any compaction-free trace the counter
is monotone non-decreasing.  The hypothesis `cps + 1 < 2^32` rules out
`uint32_t` wrap-around of the counter increment. -/
theorem suchai_C8_counter_monotone (c : FpCfg) (hU : c.cps + 1 < U32) :
    (∀ s row, fpCounter c s ≤ c.cps →
      (((storage_flight_plan_set_st c s row).1 = SCH_ST_OK →
          fpCounter c (storage_flight_plan_set_st c s row).2 = fpCounter c s + 1)
        ∧ ((storage_flight_plan_set_st c s row).1 ≠ SCH_ST_OK →
          fpCounter c (storage_flight_plan_set_st c s row).2 = fpCounter c s)))
    ∧ (∀ s k, fpCounter c (flight_plan_erase_index_tlb c s k).2 = fpCounter c s)
    ∧ (∀ s ops, noCompactionTraceB c s ops = true →
        fpCounter c s ≤ fpCounter c (runFpOps c s ops)) := by
  refine ⟨fun s row hle => ?_, fun s k => erase_index_counter c s k,
    fun s ops h => runFpOps_counter_mono c hU ops s h⟩
  obtain ⟨hok, hfail⟩ := set_st_counter c s row hle hU
  exact ⟨hok, fun h => by rw [hfail h]⟩

/-- C8 witness: along the concrete trace insert-then-delete from the empty
state, the counter does not decrease. -/
theorem suchai_C8_witness :
    fpCounter fpCfg0 emptyTlbState ≤ fpCounter fpCfg0 (runFpOps fpCfg0 emptyTlbState opsW) :=
  (suchai_C8_counter_monotone fpCfg0 (by decide)).2.2 emptyTlbState opsW (by decide)
